import Mathlib

/-!
Shallow embedding of the movement / collision-resolution core of the
RustGame repository (a 2D platformer built on ggez + ncollide).

Sources embedded:
  * `src/actors/player.rs`   — `Player`, its constants, `new`, `input`,
    `set_movement`, `jump`, `step`, `update_movement`, `update_grounded`,
    `advance`.
  * `src/actors/coin.rs`     — `Coin`, `new`, `pickUpCoin`, `isPickedUp`.
  * `src/actors/object.rs`   — `Object`, `new`, `pickUpObject`, `isPickedUp`.
  * `src/actors/types.rs`    — `ActorType`.
  * `src/game_inputs.rs`     — `Direction`, `InputEvent`.
  * `src/main.rs`            — `handle_contact_event`, window constants and
    `world_to_screen_coords` (the `main.rs` copy, which ignores its two
    dimension arguments and uses the window constants).

Numeric model: the Rust code computes on `f32`/`f64`.  All the constants
involved (multiples of `1/60`, `0.21`, `0.16`, window sizes) and all the
operations used (addition, subtraction, multiplication, `max`, `min`, `abs`,
`signum`, comparisons) are modelled exactly over `ℚ`.  `f32::signum` in Rust
returns `1.0` for `+0.0`; `rustSignum` mirrors that (there is no negative
zero in `ℚ`).

`src/actors/step_queue.rs` is declared in `src/actors/mod.rs` but its file is
not part of the sources; the `StepQueue` operations are modelled from the
spec (peek-then-conditionally-push FIFO with per-tag de-duplication), as
noted on each of those definitions.
-/

set_option linter.unusedVariables false

namespace RustGame

/-- `Direction` from `game_inputs.rs`: available movement directions. -/
inductive Direction where
| Left : Direction
| Right : Direction
deriving DecidableEq, Repr

/-- `Direction::movement` from `game_inputs.rs`: a plus-or-minus multiplier along X. -/
def Direction.movement : Direction → ℚ
| Direction.Left => -1
| Direction.Right => 1

/-- `InputEvent` from `game_inputs.rs`. -/
inductive InputEvent where
| UpdateMovement : Option Direction → InputEvent
| PressJump : InputEvent
| TimeUpdate : InputEvent
| Landed : InputEvent
deriving DecidableEq, Repr

/-- `PlayerState` from `player.rs`: the allowable player states. -/
inductive PlayerState where
| Jumping : PlayerState
| Walking : PlayerState
| Idle : PlayerState
deriving DecidableEq, Repr

/-- `PlayerSize` from `player.rs`. -/
inductive PlayerSize where
| Big : PlayerSize
deriving DecidableEq, Repr

/-- `ActorType` from `types.rs`. -/
inductive ActorType where
| Player : ActorType
| Coin : ActorType
| Object : ActorType
deriving DecidableEq, Repr

/-- A 2D vector (`ggez::graphics::Vector2`), components modelled over `ℚ`. -/
structure Vec2 where
  x : ℚ
  y : ℚ
deriving DecidableEq, Repr

/-- Modelled from the spec: the tag of a step request held by the Step
Scheduler (`src/actors/step_queue.rs` is declared in `mod.rs` but missing
from the sources).  One tag per actor kind, matching `ActorType`; `player.rs`
only ever enqueues and dispatches `Step::Player`. -/
inductive Step where
| Player : Step
| Coin : Step
| Object : Step
deriving DecidableEq, Repr

/-- Modelled from the spec: the Step Scheduler's state, "a FIFO queue of step
requests keyed by actor tag".  Front of the list is the front of the queue. -/
abbrev StepQueue := List Step

/-- Modelled from the spec: `StepQueue::new()` — the empty queue. -/
def StepQueue.new : StepQueue := []

/-- Modelled from the spec: `StepQueue::peek_specific(s)` — peek-then-
conditionally-push semantics: enqueuing a tag already present is a no-op,
otherwise the tag is pushed at the back. -/
def StepQueue.peek_specific (q : StepQueue) (s : Step) : StepQueue :=
  if s ∈ q then q else q ++ [s]

/-- Modelled from the spec: `StepQueue::pop()` — pops the front request,
returning it together with the rest of the queue (`none` when empty; the
caller's `match` silently drops unrecognized results). -/
def StepQueue.pop (q : StepQueue) : Option Step × StepQueue :=
  match q with
  | [] => (none, [])
  | s :: rest => (some s, rest)

/-! Constants from `player.rs` (values exact over `ℚ`). -/

/-- `STEP_PERIOD` from `player.rs`. -/
def STEP_PERIOD : ℚ := 1 / 60

/-- `MOVE_ACCEL` from `player.rs`. -/
def MOVE_ACCEL : ℚ := 150 * STEP_PERIOD

/-- `STOP_ACCEL` from `player.rs`. -/
def STOP_ACCEL : ℚ := 350 * STEP_PERIOD

/-- `FALL_ACCEL` from `player.rs`. -/
def FALL_ACCEL : ℚ := 360 * STEP_PERIOD

/-- `JUMP_SPEED` from `player.rs`. -/
def JUMP_SPEED : ℚ := 60

/-- `MAX_FALL_SPEED` from `player.rs`. -/
def MAX_FALL_SPEED : ℚ := 40

/-- `MAX_MOVE_SPEED` from `player.rs`. -/
def MAX_MOVE_SPEED : ℚ := 10

/-- `jump_duration` from `player.rs`. -/
def jump_duration (x_speed : ℚ) : ℚ := 0.21 + 0.10 * (x_speed / MAX_MOVE_SPEED)

/-- `GRAPHIC_STEP_DURATION` from `player.rs`. -/
def GRAPHIC_STEP_DURATION : ℚ := 0.16

/-- Rust's `f32::signum` / `f64::signum` on the values reachable here:
`1` for positive values and `+0.0`, `-1` for negative values. -/
def rustSignum (q : ℚ) : ℚ := if q < 0 then -1 else 1

/-- The `Player` struct from `player.rs`.  `time`, timestamps and kinematics
are modelled over `ℚ`; the collision handle is an opaque `Nat` index. -/
structure Player where
  time : ℚ
  state_start_time : ℚ
  tag : ActorType
  pos : Vec2
  dir : Direction
  currentState : PlayerState
  size : PlayerSize
  moving : Bool
  grounded : Bool
  jump_time : ℚ
  velocity : Vec2
  debug : Bool
  col_handle : Option Nat
  step_queue : StepQueue
deriving DecidableEq, Repr

/-- `Player::set_movement` from `player.rs`. -/
def Player.set_movement (p : Player) (movement : Option Direction) : Player :=
  let p :=
    if p.grounded = false ∧ p.currentState ≠ PlayerState.Jumping then
      { p with currentState := PlayerState.Jumping }
    else p
  if p.currentState = PlayerState.Jumping ∨ p.currentState = PlayerState.Walking then
    let md : Bool × Direction :=
      match movement with
      | some dir => (true, dir)
      | none => (false, p.dir)
    let p :=
      if p.moving ≠ md.1 ∨ p.dir ≠ md.2 then { p with state_start_time := p.time } else p
    { p with moving := md.1, dir := md.2 }
  else
    { p with moving := false }

/-- `Player::new` from `player.rs`.  The `pos` argument is unused in the
source (the field is initialised to `(-1920, 0)`). -/
def Player.new (pos : Vec2) (time : ℚ) (move_dir : Option Direction) : Player :=
  let player : Player :=
    { time := time
      state_start_time := time
      tag := ActorType.Player
      pos := ⟨-1920, 0⟩
      dir := Direction.Right
      currentState := PlayerState.Jumping
      size := PlayerSize.Big
      moving := false
      grounded := false
      jump_time := time
      velocity := ⟨0, 0⟩
      debug := true
      col_handle := none
      step_queue := StepQueue.new }
  player.set_movement move_dir

/-- `Player::update_movement` from `player.rs`: clamp `velocity.x` to
`[-MAX_MOVE_SPEED, MAX_MOVE_SPEED]`; clamp the fall speed while Jumping and
force `velocity.y` to zero otherwise. -/
def Player.update_movement (p : Player) : Player :=
  let vx := max p.velocity.x (-MAX_MOVE_SPEED)
  let vx := min vx MAX_MOVE_SPEED
  let vy :=
    if p.currentState = PlayerState.Jumping then max p.velocity.y (-MAX_FALL_SPEED)
    else 0
  { p with velocity := ⟨vx, vy⟩ }

/-- `Player::update_grounded` from `player.rs`. -/
def Player.update_grounded (p : Player) (near_ground : Bool) : Player :=
  let on_ground : Bool :=
    decide (p.velocity.y = 0 ∧ p.currentState ≠ PlayerState.Jumping)
  match p.grounded, on_ground, near_ground with
  | false, true, _ =>
      Player.update_movement
        { p with state_start_time := p.time - GRAPHIC_STEP_DURATION, grounded := true }
  | true, false, false =>
      Player.update_movement
        { p with state_start_time := p.time, grounded := false }
  | true, false, true =>
      { p with velocity := ⟨p.velocity.x, -MAX_FALL_SPEED⟩ }
  | _, _, _ => p

/-- `Player::step` from `player.rs`: the per-tick integrator. -/
def Player.step (p : Player) : Player :=
  let stop_accel := if p.grounded then STOP_ACCEL else MOVE_ACCEL
  let rel_vel_x := if p.velocity.x ≠ 0 then p.velocity.x else 0
  let rel_vel_x :=
    if p.moving then
      let accel :=
        if p.dir.movement = rustSignum rel_vel_x then MOVE_ACCEL else stop_accel
      rel_vel_x + p.dir.movement * accel
    else if p.grounded then
      if |rel_vel_x| > stop_accel then rel_vel_x - rustSignum rel_vel_x * stop_accel
      else 0
    else
      rel_vel_x
  let p := { p with velocity := ⟨rel_vel_x, p.velocity.y⟩ }
  let p :=
    if p.time > p.jump_time ∨ p.grounded = false then
      { p with velocity := ⟨p.velocity.x, p.velocity.y - FALL_ACCEL⟩ }
    else p
  let p := { p with pos := ⟨p.pos.x + p.velocity.x, p.pos.y + p.velocity.y⟩ }
  Player.update_grounded (Player.update_movement p) false

/-- `Player::jump` from `player.rs`: only effective while grounded. -/
def Player.jump (p : Player) : Player :=
  if p.grounded then
    let p :=
      { p with
          grounded := false
          state_start_time := p.time
          jump_time := p.time + jump_duration |p.velocity.x|
          velocity := ⟨p.velocity.x, JUMP_SPEED⟩ }
    let direction := p.dir
    let p := if p.moving then p.set_movement (some direction) else p.set_movement none
    { p with step_queue := p.step_queue.peek_specific Step.Player }
  else p

/-- `Player::advance` from `player.rs`: pop the step queue and dispatch
`Step::Player` to `step()`, silently dropping anything else. -/
def Player.advance (p : Player) : Player :=
  let popped := p.step_queue.pop
  let p := { p with step_queue := popped.2 }
  match popped.1 with
  | some Step.Player => p.step
  | _ => p

/-- `Player::input` from `player.rs`.  The source runs two successive
`match`es on the event: the first records a supplied direction, the second
dispatches on the event kind (its `UpdateMovement(direction)` arm is reached
only with `Some _`, since `UpdateMovement(None)` is matched first). -/
def Player.input (p : Player) (event : InputEvent) : Player :=
  let p :=
    match event with
    | InputEvent.UpdateMovement (some direction) => { p with dir := direction }
    | _ => p
  match event with
  | InputEvent.UpdateMovement none =>
      let p := { p with currentState := PlayerState.Idle }
      let p := p.set_movement none
      let p := { p with moving := false }
      { p with step_queue := p.step_queue.peek_specific Step.Player }
  | InputEvent.UpdateMovement direction =>
      if p.currentState = PlayerState.Jumping ∧ p.grounded = false then
        let p := p.set_movement direction
        { p with step_queue := p.step_queue.peek_specific Step.Player }
      else
        let p := { p with currentState := PlayerState.Walking }
        let p := p.set_movement direction
        { p with step_queue := p.step_queue.peek_specific Step.Player }
  | InputEvent.PressJump =>
      if p.currentState ≠ PlayerState.Jumping then
        let p := { p with currentState := PlayerState.Jumping }
        let p := p.jump
        p.advance
      else p
  | InputEvent.TimeUpdate => p
  | InputEvent.Landed =>
      if p.grounded = false then
        let p := { p with velocity := ⟨p.velocity.x, 0⟩, grounded := true }
        let direction := p.dir
        let p :=
          if p.moving then
            ({ p with currentState := PlayerState.Walking }).set_movement (some direction)
          else
            ({ p with currentState := PlayerState.Idle }).set_movement none
        { p with step_queue := p.step_queue.peek_specific Step.Player }
      else p

/-- The `Coin` struct from `coin.rs`. -/
structure Coin where
  tag : ActorType
  pos : Vec2
  pickedup : Bool
  debug : Bool
  col_handle : Option Nat
deriving DecidableEq, Repr

/-- `Coin::new` from `coin.rs` (the `pos` argument is unused in the source). -/
def Coin.new (pos : Vec2) : Coin :=
  { tag := ActorType.Coin
    pos := ⟨1920 / 2 - 750, -1080 / 4⟩
    pickedup := false
    debug := true
    col_handle := none }

/-- `Coin::pickUpCoin` from `coin.rs`. -/
def Coin.pickUpCoin (c : Coin) : Coin := { c with pickedup := true }

/-- `Coin::isPickedUp` from `coin.rs`. -/
def Coin.isPickedUp (c : Coin) : Bool := c.pickedup

/-- The `Object` struct from `object.rs` (used for the vending machine). -/
structure Object where
  tag : ActorType
  pos : Vec2
  pickedup : Bool
  debug : Bool
  col_handle : Option Nat
deriving DecidableEq, Repr

/-- `Object::new` from `object.rs`. -/
def Object.new (pos : Vec2) : Object :=
  { tag := ActorType.Object
    pos := pos
    pickedup := false
    debug := true
    col_handle := none }

/-- `Object::pickUpObject` from `object.rs`. -/
def Object.pickUpObject (o : Object) : Object := { o with pickedup := true }

/-- `Object::isPickedUp` from `object.rs`. -/
def Object.isPickedUp (o : Object) : Bool := o.pickedup

/-- `ncollide::events::ContactEvent` restricted to what `main.rs` consumes:
collider handles are opaque `Nat` indices. -/
inductive ContactEvent where
| Started : Nat → Nat → ContactEvent
| Stopped : Nat → Nat → ContactEvent
deriving DecidableEq, Repr

/-- `WINDOW_HEIGHT` from `main.rs`. -/
def WINDOW_HEIGHT : ℚ := 1080

/-- `WINDOW_WIDTH` from `main.rs`. -/
def WINDOW_WIDTH : ℚ := 1920

/-- `FERRIS_HEIGHT` from `main.rs`. -/
def FERRIS_HEIGHT : ℚ := 167

/-- `world_to_screen_coords` as defined in `main.rs`: this copy ignores both
dimension arguments and uses `WINDOW_WIDTH` / `WINDOW_HEIGHT`. -/
def main_world_to_screen_coords (screen_width screen_height : ℕ) (point : Vec2) : Vec2 :=
  let width := WINDOW_WIDTH
  let height := WINDOW_HEIGHT
  ⟨point.x + width / 2, height - (point.y + height / 2)⟩

/-- `handle_contact_event` from `main.rs`.  The collision world is modelled
by its only two uses here: a collider handle compares equal to an actor's
stored handle exactly when they are the same `Nat`, and `world_co1_pos`
stands for `co1.position().translation.vector` (the looked-up world position
of the first collider, used only in the ground branch).  `ctx_height` and
`ctx_width` mirror the window dimensions passed to
`main_world_to_screen_coords`, which ignores them.  Audio calls and
`println!` are collaborator side effects with no state here.  The result is
`none` exactly when the source would panic on an `unwrap` of a missing
collision handle; otherwise it carries the updated player, coin and vending
objects plus the returned score delta `s`. -/
def handle_contact_event (player : Player) (coin : Coin) (vending : Object)
    (world_co1_pos : Vec2) (event : ContactEvent) (ctx_height ctx_width : ℕ) :
    Option (Player × Coin × Object × ℤ) :=
  match event with
  | ContactEvent.Started collider1 collider2 =>
      match coin.col_handle with
      | none => none
      | some coin_handle =>
          if collider1 = coin_handle ∨ collider2 = coin_handle then
            if coin.isPickedUp = false then
              some (player, coin.pickUpCoin, vending, 1337)
            else
              some (player, coin, vending, 0)
          else
            match vending.col_handle with
            | none => none
            | some vending_handle =>
                if collider1 = vending_handle ∨ collider2 = vending_handle then
                  if vending.isPickedUp = false then
                    some (player, coin, vending.pickUpObject, 0)
                  else
                    some (player, coin, vending, 0)
                else
                  let player :=
                    if player.grounded = false then player.input InputEvent.Landed
                    else player
                  let pos := main_world_to_screen_coords ctx_height ctx_width world_co1_pos
                  let player :=
                    { player with pos := ⟨player.pos.x, pos.y + FERRIS_HEIGHT + 50⟩ }
                  some (player, coin, vending, 0)
  | _ => some (player, coin, vending, 0)

/-!
Helper lemmas about the embedded operations, shared by the claim theorems.
-/

theorem set_movement_grounded (p : Player) (m : Option Direction) :
    (p.set_movement m).grounded = p.grounded := by
  cases m <;> simp only [Player.set_movement] <;> split_ifs <;> rfl

theorem set_movement_velocity (p : Player) (m : Option Direction) :
    (p.set_movement m).velocity = p.velocity := by
  cases m <;> simp only [Player.set_movement] <;> split_ifs <;> rfl

theorem set_movement_jump_time (p : Player) (m : Option Direction) :
    (p.set_movement m).jump_time = p.jump_time := by
  cases m <;> simp only [Player.set_movement] <;> split_ifs <;> rfl

theorem set_movement_step_queue (p : Player) (m : Option Direction) :
    (p.set_movement m).step_queue = p.step_queue := by
  cases m <;> simp only [Player.set_movement] <;> split_ifs <;> rfl

theorem set_movement_none_dir (p : Player) :
    (p.set_movement none).dir = p.dir := by
  simp only [Player.set_movement]
  split_ifs <;> rfl

theorem set_movement_none_moving (p : Player) :
    (p.set_movement none).moving = false := by
  simp only [Player.set_movement]
  split_ifs <;> rfl

theorem update_movement_currentState (p : Player) :
    (p.update_movement).currentState = p.currentState := rfl

theorem update_movement_dir (p : Player) :
    (p.update_movement).dir = p.dir := rfl

theorem update_movement_grounded (p : Player) :
    (p.update_movement).grounded = p.grounded := rfl

theorem update_movement_vy_of_ne (p : Player)
    (h : p.currentState ≠ PlayerState.Jumping) :
    (p.update_movement).velocity.y = 0 := by
  simp only [Player.update_movement]
  simp [h]

theorem update_movement_vx_bound (p : Player) :
    |(p.update_movement).velocity.x| ≤ MAX_MOVE_SPEED := by
  simp only [Player.update_movement]
  rw [abs_le]
  constructor
  · exact le_min (le_max_right _ _) (by norm_num [MAX_MOVE_SPEED])
  · exact min_le_right _ _

theorem update_grounded_currentState (p : Player) (b : Bool) :
    (p.update_grounded b).currentState = p.currentState := by
  unfold Player.update_grounded
  cases hg : p.grounded <;>
    cases hd : decide (p.velocity.y = 0 ∧ p.currentState ≠ PlayerState.Jumping) <;>
      cases hb : b <;> simp [update_movement_currentState]

theorem update_grounded_dir (p : Player) (b : Bool) :
    (p.update_grounded b).dir = p.dir := by
  unfold Player.update_grounded
  cases hg : p.grounded <;>
    cases hd : decide (p.velocity.y = 0 ∧ p.currentState ≠ PlayerState.Jumping) <;>
      cases hb : b <;> simp [update_movement_dir]

theorem update_grounded_vy_zero (p : Player) (b : Bool)
    (hs : p.currentState ≠ PlayerState.Jumping) (hy : p.velocity.y = 0) :
    (p.update_grounded b).velocity.y = 0 := by
  unfold Player.update_grounded
  cases hg : p.grounded <;> cases hb : b <;>
    simp [hs, hy, update_movement_vy_of_ne, Player.update_movement]

theorem update_grounded_vx_bound (p : Player) (b : Bool)
    (h : |p.velocity.x| ≤ MAX_MOVE_SPEED) :
    |(p.update_grounded b).velocity.x| ≤ MAX_MOVE_SPEED := by
  unfold Player.update_grounded
  cases hg : p.grounded <;>
    cases hd : decide (p.velocity.y = 0 ∧ p.currentState ≠ PlayerState.Jumping) <;>
      cases hb : b <;>
        first
        | exact h
        | exact update_movement_vx_bound _

theorem update_grounded_airborne_jumping (p : Player) (b : Bool)
    (hg : p.grounded = false) (hs : p.currentState = PlayerState.Jumping) :
    p.update_grounded b = p := by
  unfold Player.update_grounded
  simp [hg, hs]

theorem step_currentState (p : Player) : (p.step).currentState = p.currentState := by
  simp only [Player.step, update_grounded_currentState, update_movement_currentState]
  split <;> rfl

theorem step_dir (p : Player) : (p.step).dir = p.dir := by
  simp only [Player.step, update_grounded_dir, update_movement_dir]
  split <;> rfl

theorem step_vy_of_ne (p : Player) (h : p.currentState ≠ PlayerState.Jumping) :
    (p.step).velocity.y = 0 := by
  simp only [Player.step]
  apply update_grounded_vy_zero
  · rw [update_movement_currentState]
    split <;> exact h
  · apply update_movement_vy_of_ne
    split <;> exact h

theorem step_vx_bound (p : Player) : |(p.step).velocity.x| ≤ MAX_MOVE_SPEED := by
  simp only [Player.step]
  exact update_grounded_vx_bound _ _ (update_movement_vx_bound _)

theorem step_airborne_jumping (r : Player) (hg : r.grounded = false)
    (hs : r.currentState = PlayerState.Jumping) :
    (r.step).velocity.y = max (r.velocity.y - FALL_ACCEL) (-MAX_FALL_SPEED) ∧
      (r.step).grounded = false ∧ (r.step).currentState = PlayerState.Jumping := by
  obtain ⟨t, sst, tag, pos, dir, cs, size, mv, gr, jt, vel, dbg, ch, sq⟩ := r
  simp only at hg hs
  subst hg hs
  simp [Player.step, Player.update_movement, Player.update_grounded]

theorem jump_dir (p : Player) : (p.jump).dir = p.dir := by
  obtain ⟨t, sst, tag, pos, dir, cs, size, mv, gr, jt, vel, dbg, ch, sq⟩ := p
  cases gr <;> cases mv <;> cases cs <;>
    simp [Player.jump, Player.set_movement]

theorem advance_dir (p : Player) : (p.advance).dir = p.dir := by
  rcases hsq : p.step_queue with _ | ⟨a, rest⟩
  · simp [Player.advance, StepQueue.pop, hsq]
  · cases a <;> simp [Player.advance, StepQueue.pop, hsq, step_dir]

theorem input_landed_grounded (p : Player) :
    (p.input InputEvent.Landed).grounded = true := by
  obtain ⟨t, sst, tag, pos, dir, cs, size, mv, gr, jt, vel, dbg, ch, sq⟩ := p
  cases gr <;> cases mv <;>
    simp [Player.input, set_movement_grounded]

theorem input_landed_of_grounded (p : Player) (h : p.grounded = true) :
    p.input InputEvent.Landed = p := by
  simp [Player.input, h]

theorem pickUpCoin_col_handle (c : Coin) : (c.pickUpCoin).col_handle = c.col_handle := rfl

/-!
Concrete sample states used by witnesses and counterexamples.
-/

/-- A grounded, idle player at the origin with empty step queue. -/
def samplePlayer : Player :=
  { time := 0, state_start_time := 0, tag := ActorType.Player, pos := ⟨0, 0⟩,
    dir := Direction.Right, currentState := PlayerState.Idle, size := PlayerSize.Big,
    moving := false, grounded := true, jump_time := 0, velocity := ⟨0, 0⟩,
    debug := true, col_handle := none, step_queue := [] }

/-- An airborne, jumping player (the spawn situation of `Player::new`). -/
def sampleAirborne : Player :=
  { samplePlayer with grounded := false, currentState := PlayerState.Jumping }

/-- A coin with a registered collision handle, not yet picked up. -/
def sampleCoin : Coin := { Coin.new ⟨0, 0⟩ with col_handle := some 7 }

/-- A vending machine object with a registered collision handle. -/
def sampleVending : Object := { Object.new ⟨0, 0⟩ with col_handle := some 8 }

/-!
Claim theorems.
-/

/-- C1: for every player state, after a call to `Player::step()`, if
`currentState` is not `Jumping` then `velocity.y` equals exactly `0`. -/
theorem C1_step_not_jumping_vy_zero (p : Player)
    (h : (p.step).currentState ≠ PlayerState.Jumping) :
    (p.step).velocity.y = 0 := by
  rw [step_currentState] at h
  exact step_vy_of_ne p h

/-- Witness for C1 at the concrete grounded idle player. -/
theorem C1_step_not_jumping_vy_zero_witness :
    (samplePlayer.step).currentState ≠ PlayerState.Jumping ∧
      (samplePlayer.step).velocity.y = 0 := by
  have h : (samplePlayer.step).currentState ≠ PlayerState.Jumping := by
    norm_num [samplePlayer, Player.step, Player.update_movement, Player.update_grounded,
      MOVE_ACCEL, STOP_ACCEL, FALL_ACCEL, STEP_PERIOD, MAX_FALL_SPEED, MAX_MOVE_SPEED,
      rustSignum, Direction.movement, GRAPHIC_STEP_DURATION]
    decide
  exact ⟨h, C1_step_not_jumping_vy_zero samplePlayer h⟩

/-- C2 (counterexample to the claim as stated): for the concrete grounded,
idle player, delivering `input(PressJump)` does not leave
`velocity.y = JUMP_SPEED`: the forced same-frame `step()` already applies
one tick of gravity, leaving `JUMP_SPEED - FALL_ACCEL = 54`. -/
theorem C2_press_jump_counterexample :
    samplePlayer.grounded = true ∧ samplePlayer.currentState ≠ PlayerState.Jumping ∧
      ¬((samplePlayer.input InputEvent.PressJump).currentState = PlayerState.Jumping ∧
        (samplePlayer.input InputEvent.PressJump).velocity.y = JUMP_SPEED ∧
        (samplePlayer.input InputEvent.PressJump).grounded = false) := by
  refine ⟨rfl, by decide, ?_⟩
  intro hc
  have h54 : (samplePlayer.input InputEvent.PressJump).velocity.y = 54 := by
    norm_num [samplePlayer, Player.input, Player.jump, Player.advance, Player.step,
      Player.set_movement, Player.update_movement, Player.update_grounded,
      StepQueue.peek_specific, StepQueue.pop, jump_duration, JUMP_SPEED, FALL_ACCEL,
      MOVE_ACCEL, STOP_ACCEL, STEP_PERIOD, MAX_FALL_SPEED, MAX_MOVE_SPEED,
      Direction.movement, rustSignum, GRAPHIC_STEP_DURATION]
    rfl
  rw [h54] at hc
  exact absurd hc.2.1 (by norm_num [JUMP_SPEED])

/-- C2 (amended): for every player state with `grounded = true`,
`currentState ≠ Jumping` and a step queue holding only `Step::Player` tags
(the only tag `player.rs` ever enqueues), delivering `input(PressJump)`
results in `currentState = Jumping`, `grounded = false`, and
`velocity.y = JUMP_SPEED - FALL_ACCEL`: the jump impulse is set to
`JUMP_SPEED` and the immediately forced physics step applies one tick of
gravity. -/
theorem C2_press_jump_amended (p : Player) (hg : p.grounded = true)
    (hs : p.currentState ≠ PlayerState.Jumping)
    (hq : ∀ s ∈ p.step_queue, s = Step.Player) :
    (p.input InputEvent.PressJump).currentState = PlayerState.Jumping ∧
      (p.input InputEvent.PressJump).grounded = false ∧
      (p.input InputEvent.PressJump).velocity.y = JUMP_SPEED - FALL_ACCEL := by
  have key : ∀ (r : Player), r.grounded = false → r.currentState = PlayerState.Jumping →
      r.velocity.y = JUMP_SPEED →
      (r.step).currentState = PlayerState.Jumping ∧ (r.step).grounded = false ∧
        (r.step).velocity.y = JUMP_SPEED - FALL_ACCEL := by
    intro r h1 h2 h3
    obtain ⟨hy, hg2, hs2⟩ := step_airborne_jumping r h1 h2
    refine ⟨hs2, hg2, ?_⟩
    rw [hy, h3]
    norm_num [JUMP_SPEED, FALL_ACCEL, MAX_FALL_SPEED, STEP_PERIOD]
  obtain ⟨t, sst, tag, pos, dir, cs, size, mv, gr, jt, vel, dbg, ch, sq⟩ := p
  simp only at hg hs hq
  subst hg
  rcases sq with _ | ⟨a, rest⟩
  · cases mv <;>
    · simp [Player.input, Player.jump, Player.set_movement, Player.advance, hs,
        StepQueue.peek_specific, StepQueue.pop]
      exact key _ rfl rfl rfl
  · have ha : a = Step.Player := hq a (List.mem_cons_self a rest)
    subst ha
    cases mv <;>
    · simp [Player.input, Player.jump, Player.set_movement, Player.advance, hs,
        StepQueue.peek_specific, StepQueue.pop]
      exact key _ rfl rfl rfl

/-- Witness for the amended C2 at the concrete grounded idle player. -/
theorem C2_press_jump_amended_witness :
    (samplePlayer.input InputEvent.PressJump).currentState = PlayerState.Jumping ∧
      (samplePlayer.input InputEvent.PressJump).grounded = false ∧
      (samplePlayer.input InputEvent.PressJump).velocity.y = JUMP_SPEED - FALL_ACCEL :=
  C2_press_jump_amended samplePlayer rfl (by decide) (by simp [samplePlayer])

/-- C3 (counterexample to the claim as stated): for the concrete airborne
jumping player, delivering `input(UpdateMovement(None))` does not leave
`currentState = Idle`: `set_movement` re-derives `Jumping` for any airborne
player whose state is not already `Jumping`. -/
theorem C3_stop_counterexample :
    ¬((sampleAirborne.input (InputEvent.UpdateMovement none)).currentState =
        PlayerState.Idle ∧
      (sampleAirborne.input (InputEvent.UpdateMovement none)).moving = false) := by
  intro hc
  exact absurd hc.1 (by decide)

/-- C3 (amended): delivering `input(UpdateMovement(None))` always clears the
movement intent (`moving = false`); `currentState` becomes `Idle` when the
player is grounded, while for an airborne player it ends as `Jumping`. -/
theorem C3_stop_amended (p : Player) :
    (p.input (InputEvent.UpdateMovement none)).moving = false ∧
      (p.input (InputEvent.UpdateMovement none)).currentState =
        (if p.grounded = true then PlayerState.Idle else PlayerState.Jumping) := by
  obtain ⟨t, sst, tag, pos, dir, cs, size, mv, gr, jt, vel, dbg, ch, sq⟩ := p
  cases gr <;> cases mv <;> simp [Player.input, Player.set_movement]

/-- C4 (spec-modelled `StepQueue`): enqueuing the same actor tag twice before
draining leaves the queue exactly as after one enqueue (the second
`peek_specific` is a no-op), and draining the queue dispatches exactly one
step for that tag (the tag occurs exactly once). -/
theorem C4_dedup (q : StepQueue) (t : Step) (h : t ∉ q) :
    (q.peek_specific t).peek_specific t = q.peek_specific t ∧
      List.count t ((q.peek_specific t).peek_specific t) = 1 := by
  have h1 : q.peek_specific t = q ++ [t] := by
    simp [StepQueue.peek_specific, h]
  have h2 : (q ++ [t]).peek_specific t = q ++ [t] := by
    simp [StepQueue.peek_specific]
  refine ⟨by rw [h1, h2], ?_⟩
  rw [h1, h2, List.count_append]
  simp [List.count_eq_zero_of_not_mem h]

/-- Witness for C4 on the empty queue and the `Player` tag. -/
theorem C4_dedup_witness :
    (Step.Player ∉ ([] : StepQueue)) ∧
      (StepQueue.peek_specific (StepQueue.peek_specific [] Step.Player) Step.Player =
          StepQueue.peek_specific [] Step.Player ∧
        List.count Step.Player
            (StepQueue.peek_specific (StepQueue.peek_specific [] Step.Player) Step.Player) = 1) :=
  ⟨by decide, C4_dedup [] Step.Player (by decide)⟩

/-- C5: for every initial player state and every positive number of
`Player::step()` calls, `|velocity.x| ≤ MAX_MOVE_SPEED` holds after each
call. -/
theorem C5_horizontal_clamp (p : Player) (n : ℕ) :
    |(Player.step^[n + 1] p).velocity.x| ≤ MAX_MOVE_SPEED := by
  rw [Function.iterate_succ_apply']
  exact step_vx_bound _

/-- C6: delivering `Landed` twice in a row changes the player only on the
first delivery; the second `Landed` leaves the entire state unchanged. -/
theorem C6_landed_idempotent (p : Player) :
    (p.input InputEvent.Landed).input InputEvent.Landed = p.input InputEvent.Landed :=
  input_landed_of_grounded _ (input_landed_grounded p)

/-- C7: a `PressJump` delivered while already `Jumping` is a defined no-op:
the whole player state (velocity and timer fields included) is unchanged. -/
theorem C7_press_jump_while_jumping_noop (p : Player)
    (h : p.currentState = PlayerState.Jumping) :
    p.input InputEvent.PressJump = p := by
  simp [Player.input, h]

/-- Witness for C7 at the concrete airborne jumping player. -/
theorem C7_press_jump_while_jumping_noop_witness :
    sampleAirborne.currentState = PlayerState.Jumping ∧
      sampleAirborne.input InputEvent.PressJump = sampleAirborne :=
  ⟨rfl, C7_press_jump_while_jumping_noop sampleAirborne rfl⟩

/-- C8: a contact-started event naming the coin's collision handle, with the
coin not yet collected, marks the coin collected and returns score delta
`1337`; a second identical contact event leaves the coin unchanged and
returns `0`. -/
theorem C8_coin_contact (player : Player) (coin : Coin) (vending : Object)
    (world_co1_pos : Vec2) (c1 c2 coin_handle : Nat) (ctx_height ctx_width : ℕ)
    (hch : coin.col_handle = some coin_handle)
    (hhit : c1 = coin_handle ∨ c2 = coin_handle)
    (hnp : coin.pickedup = false) :
    handle_contact_event player coin vending world_co1_pos
        (ContactEvent.Started c1 c2) ctx_height ctx_width =
      some (player, coin.pickUpCoin, vending, 1337) ∧
    (coin.pickUpCoin).pickedup = true ∧
    handle_contact_event player coin.pickUpCoin vending world_co1_pos
        (ContactEvent.Started c1 c2) ctx_height ctx_width =
      some (player, coin.pickUpCoin, vending, 0) := by
  refine ⟨?_, rfl, ?_⟩
  · simp [handle_contact_event, hch, hhit, hnp, Coin.isPickedUp]
  · simp [handle_contact_event, Coin.pickUpCoin, hch, hhit, Coin.isPickedUp]

/-- Witness for C8 at concrete actors and handles. -/
theorem C8_coin_contact_witness :
    handle_contact_event samplePlayer sampleCoin sampleVending ⟨0, 0⟩
        (ContactEvent.Started 7 3) 1080 1920 =
      some (samplePlayer, sampleCoin.pickUpCoin, sampleVending, 1337) ∧
    (sampleCoin.pickUpCoin).pickedup = true ∧
    handle_contact_event samplePlayer sampleCoin.pickUpCoin sampleVending ⟨0, 0⟩
        (ContactEvent.Started 7 3) 1080 1920 =
      some (samplePlayer, sampleCoin.pickUpCoin, sampleVending, 0) :=
  C8_coin_contact samplePlayer sampleCoin sampleVending ⟨0, 0⟩ 7 3 7 1080 1920
    rfl (Or.inl rfl) rfl

/-- C9: the facing direction changes only when `UpdateMovement(Some(d))`
supplies a direction (in which case it becomes exactly `d`); every other
input event, as well as `step()` and `advance()`, preserves `dir`. -/
theorem C9_dir_only_from_movement_intent (p : Player) (e : InputEvent) :
    (p.input e).dir =
        (match e with
          | InputEvent.UpdateMovement (some d) => d
          | _ => p.dir) ∧
      (p.step).dir = p.dir ∧ (p.advance).dir = p.dir := by
  refine ⟨?_, step_dir p, advance_dir p⟩
  cases e with
  | UpdateMovement md =>
      cases md with
      | none => simp [Player.input, set_movement_none_dir]
      | some d =>
          obtain ⟨t, sst, tag, pos, dir, cs, size, mv, gr, jt, vel, dbg, ch, sq⟩ := p
          cases gr <;> cases mv <;> cases cs <;>
            simp [Player.input, Player.set_movement]
  | PressJump =>
      by_cases h : p.currentState = PlayerState.Jumping
      · simp [Player.input, h]
      · simp only [Player.input]
        rw [if_pos h]
        rw [advance_dir, jump_dir]
  | TimeUpdate => rfl
  | Landed =>
      obtain ⟨t, sst, tag, pos, dir, cs, size, mv, gr, jt, vel, dbg, ch, sq⟩ := p
      cases gr <;> cases mv <;>
        simp [Player.input, Player.set_movement]

/-- C10: `Player::new(pos, time, move_dir)` ignores its `pos` argument and
yields position `(-1920, 0)`, state `Jumping`, `grounded = false`, zero
velocity, and facing `Right` unless `move_dir` supplies another direction. -/
theorem C10_new_player (pos : Vec2) (time : ℚ) (move_dir : Option Direction) :
    (Player.new pos time move_dir).pos = ⟨-1920, 0⟩ ∧
      (Player.new pos time move_dir).currentState = PlayerState.Jumping ∧
      (Player.new pos time move_dir).grounded = false ∧
      (Player.new pos time move_dir).velocity = ⟨0, 0⟩ ∧
      (Player.new pos time move_dir).dir = move_dir.getD Direction.Right := by
  cases move_dir <;> simp [Player.new, Player.set_movement, StepQueue.new]

end RustGame
